import Mathlib

/-!
Shallow embedding of the slimfmt formatting library (src/src/Slimfmt.cpp) and
proofs about the claims of its specification.

Bytes are modelled as natural numbers (values 0..255); strings handed to the
engine are `List Nat`.  Machine sizes (`std::size_t`) are modelled as `Nat`,
with an explicit `% 2^64` at the spots where C++ wrap-around is possible.

C++ loops whose progress measure is not structural are modelled with an
explicit fuel argument (always instantiated generously by the public wrapper,
e.g. `v + 1` for a loop that strictly decreases `v`); the fuel-exhausted arm
is unreachable for the wrapper's fuel, which the adequacy lemmas below make
precise.  This keeps every definition executable by `decide` / `rfl`.
-/

namespace Slimfmt

/-- The signed value of a `char` holding byte `b` (x86-64 `char` is signed):
bytes below 128 map to themselves, bytes 128..255 to `b - 256`. -/
def charSVal (b : Nat) : Int :=
  if b < 128 then (b : Int) else (b : Int) - 256

/-- One digit byte from the alphabet `"0123456789abc..."` (or its uppercase
twin), as indexed by `Digits[Digit]` in the C++ writers. -/
def digitByte (upper : Bool) (d : Nat) : Nat :=
  if d < 10 then 48 + d else (if upper then 65 else 97) + (d - 10)

/-! ## Integer renderer (Slimfmt.cpp, `GIntFormat` / `IntFormat`) -/

/-- `GIntFormat<Base>::Count` (Slimfmt.cpp:530): the power-of-four stride
loop.  The template is instantiated with `2 ≤ Base ≤ 32` only, and the
dispatch reaches it only for non-power-of-two bases other than 1 and 10.
Each iteration divides `v` by `b⁴ ≥ 16`, so fuel `v + 1` more than suffices. -/
def gCountF (fuel b v : Nat) : Nat :=
  match fuel with
  | 0 => 1
  | fuel + 1 =>
    if v < b then 1
    else if v < b * b then 2
    else if v < b * (b * b) then 3
    else if v < b * b * (b * b) then 4
    else 4 + gCountF fuel b (v / (b * b * (b * b)))

def gCount (b v : Nat) : Nat := gCountF (v + 1) b v

/-- `GIntFormat<Base>::Write` (Slimfmt.cpp:543): the bytes the digit loop
appends to the buffer.  For `v = 0` the `while (V != 0)` loop never runs, so
nothing is appended.  Digits in bases up to 10 use `'0' + Digit`, larger
bases index the alphabet. -/
def gWriteF (fuel : Nat) (upper : Bool) (b v : Nat) : List Nat :=
  match fuel with
  | 0 => []
  | fuel + 1 =>
    if v = 0 then []
    else gWriteF fuel upper b (v / b) ++
      [if b ≤ 10 then 48 + v % b else digitByte upper (v % b)]

def gWrite (upper : Bool) (b v : Nat) : List Nat := gWriteF (v + 1) upper b v

/-- Floor base-2 logarithm, fueled (`log2F fuel n = Nat.log 2 n` whenever
`n ≤ fuel`, proved below). -/
def log2F (fuel n : Nat) : Nat :=
  match fuel with
  | 0 => 0
  | fuel + 1 => if n ≥ 2 then log2F fuel (n / 2) + 1 else 0

/-- `intLog2` (Slimfmt.cpp:114): `63 - clzll(V | 1)`, i.e. the floor base-2
logarithm of `V | 1`. -/
def intLog2 (v : Nat) : Nat := log2F (v + 1) (v ||| 1)

/-- `HH::baseLog2LUT` (Slimfmt.cpp:495). -/
def baseLog2LUT : List Nat :=
  [0, 0, 1, 1, 2, 2, 2, 2, 3,
   3, 3, 3, 3, 3, 3, 3, 4,
   4, 4, 4, 4, 4, 4, 4, 4,
   4, 4, 4, 4, 4, 4, 4, 5]

/-- `IntFormat<Base>::Count` for power-of-two bases (Slimfmt.cpp:582):
`(intLog2(V) / shiftCount) + 1` with `shiftCount = baseLog2LUT[Base]`. -/
def pow2Count (b v : Nat) : Nat :=
  intLog2 v / baseLog2LUT.getD b 0 + 1

/-- The do-while digit loop of `IntFormat<Base>::Write` for power-of-two
bases (Slimfmt.cpp:590), with `s = shiftCount ≥ 1`: emits
`V & ((1 << s) - 1)`, then shifts, at least once (so `v = 0` emits one
`'0'`). -/
def pow2WriteF (fuel : Nat) (upper : Bool) (b s v : Nat) : List Nat :=
  match fuel with
  | 0 => []
  | fuel + 1 =>
    let d := if b < 10 then 48 + v % 2 ^ s else digitByte upper (v % 2 ^ s)
    if v / 2 ^ s = 0 then [d]
    else pow2WriteF fuel upper b s (v / 2 ^ s) ++ [d]

/-- `IntFormat<Base>::Write` for power-of-two bases, shift from the LUT. -/
def pow2Write (upper : Bool) (b v : Nat) : List Nat :=
  pow2WriteF (v + 1) upper b (baseLog2LUT.getD b 0) v

/-- `LogTable` of `IntFormat<10>::Count` (Slimfmt.cpp:638). -/
def decLogTable : List Nat :=
  [1, 1, 1, 2, 2, 2, 3, 3, 3, 4, 4, 4, 4,
   5, 5, 5, 6, 6, 6, 7, 7, 7, 7, 8, 8, 8, 9, 9, 9,
   10, 10, 10, 10, 11, 11, 11, 12, 12, 12,
   13, 13, 13, 13, 14, 14, 14, 15, 15, 15, 16, 16, 16, 16,
   17, 17, 17, 18, 18, 18, 19, 19, 19, 19, 20]

/-- `ZeroOrPow10` of `IntFormat<10>::Count` (Slimfmt.cpp:645). -/
def zeroOrPow10 : List Nat :=
  [0, 0, 10,
   100, 1000,
   10000, 100000,
   1000000, 10000000,
   100000000, 1000000000,
   10000000000, 100000000000,
   1000000000000, 10000000000000,
   100000000000000, 1000000000000000,
   10000000000000000, 100000000000000000,
   1000000000000000000, 10000000000000000000]

/-- `IntFormat<10>::Count` (Slimfmt.cpp:636): table lookup on `intLog2 V`,
minus one when `V` is below the power of ten for that entry.  (The C++ `int`
subtraction never goes below zero since every table entry is ≥ 1.) -/
def decCount (v : Nat) : Nat :=
  let out := decLogTable.getD (intLog2 v) 0
  out - (if v < zeroOrPow10.getD out 0 then 1 else 0)

/-- `DigitsGroup(x)` written through `WriteDigitsGroup` (Slimfmt.cpp:618):
the two bytes `'0' + x/10`, `'0' + x%10` (always called with `x < 100`). -/
def twoDigits (x : Nat) : List Nat := [48 + x / 10, 48 + x % 10]

/-- `IntFormat<10>::Write` (Slimfmt.cpp:664): groups of two digits while
`V ≥ 100`, then one byte if the remainder is below 10, else one last group. -/
def decWriteF (fuel v : Nat) : List Nat :=
  match fuel with
  | 0 => []
  | fuel + 1 =>
    if v < 100 then (if v < 10 then [48 + v] else twoDigits v)
    else decWriteF fuel (v / 100) ++ twoDigits (v % 100)

def decWrite (v : Nat) : List Nat := decWriteF (v + 1) v

/-- `IntFormat<1>::Count` (Slimfmt.cpp:687): `(V <= 64) ? (V | 1) : (64 + 3)`. -/
def unaryCount (v : Nat) : Nat := if v ≤ 64 then v ||| 1 else 64 + 3

/-- `IntFormat<1>::Write` (Slimfmt.cpp:693): `'0'` for zero, else up to 64
`'1'` bytes followed by `"..."` when `v > 64`. -/
def unaryWrite (v : Nat) : List Nat :=
  if v = 0 then [48]
  else List.replicate (min 64 v) 49 ++ (if v > 64 then [46, 46, 46] else [])

/-- `baseDispatch` composed with `Count` (Slimfmt.cpp:775, 820): base 1 uses
the unary specialization, powers of two the shift specialization, 10 the
two-digit specialization, every other base in `1..=32` the generic
`GIntFormat`; any other base hits the `default` arm, which returns the
value-initialized `int`, i.e. 0. -/
def CountDigitsU (v : Nat) (base : Int) : Nat :=
  match base with
  | 1 => unaryCount v
  | 2 => pow2Count 2 v
  | 3 => gCount 3 v
  | 4 => pow2Count 4 v
  | 5 => gCount 5 v
  | 6 => gCount 6 v
  | 7 => gCount 7 v
  | 8 => pow2Count 8 v
  | 9 => gCount 9 v
  | 10 => decCount v
  | 11 => gCount 11 v
  | 12 => gCount 12 v
  | 13 => gCount 13 v
  | 14 => gCount 14 v
  | 15 => gCount 15 v
  | 16 => pow2Count 16 v
  | 17 => gCount 17 v
  | 18 => gCount 18 v
  | 19 => gCount 19 v
  | 20 => gCount 20 v
  | 21 => gCount 21 v
  | 22 => gCount 22 v
  | 23 => gCount 23 v
  | 24 => gCount 24 v
  | 25 => gCount 25 v
  | 26 => gCount 26 v
  | 27 => gCount 27 v
  | 28 => gCount 28 v
  | 29 => gCount 29 v
  | 30 => gCount 30 v
  | 31 => gCount 31 v
  | 32 => pow2Count 32 v
  | _ => 0

/-- `baseDispatch` composed with `Write` (Slimfmt.cpp:775): the boolean
result and the bytes appended to the buffer.  The `default` arm returns the
value-initialized `bool`, i.e. `false`, and appends nothing. -/
def WriteU (upper : Bool) (v : Nat) (base : Int) : Bool × List Nat :=
  match base with
  | 1 => (true, unaryWrite v)
  | 2 => (true, pow2Write upper 2 v)
  | 3 => (true, gWrite upper 3 v)
  | 4 => (true, pow2Write upper 4 v)
  | 5 => (true, gWrite upper 5 v)
  | 6 => (true, gWrite upper 6 v)
  | 7 => (true, gWrite upper 7 v)
  | 8 => (true, pow2Write upper 8 v)
  | 9 => (true, gWrite upper 9 v)
  | 10 => (true, decWrite v)
  | 11 => (true, gWrite upper 11 v)
  | 12 => (true, gWrite upper 12 v)
  | 13 => (true, gWrite upper 13 v)
  | 14 => (true, gWrite upper 14 v)
  | 15 => (true, gWrite upper 15 v)
  | 16 => (true, pow2Write upper 16 v)
  | 17 => (true, gWrite upper 17 v)
  | 18 => (true, gWrite upper 18 v)
  | 19 => (true, gWrite upper 19 v)
  | 20 => (true, gWrite upper 20 v)
  | 21 => (true, gWrite upper 21 v)
  | 22 => (true, gWrite upper 22 v)
  | 23 => (true, gWrite upper 23 v)
  | 24 => (true, gWrite upper 24 v)
  | 25 => (true, gWrite upper 25 v)
  | 26 => (true, gWrite upper 26 v)
  | 27 => (true, gWrite upper 27 v)
  | 28 => (true, gWrite upper 28 v)
  | 29 => (true, gWrite upper 29 v)
  | 30 => (true, gWrite upper 30 v)
  | 31 => (true, gWrite upper 31 v)
  | 32 => (true, pow2Write upper 32 v)
  | _ => (false, [])

/-! ## Small buffer (`DynBuf` / `SmallBufImpl` / `SmallBuf`) -/

/-- What the `Data` pointer of a buffer refers to: the derived object's
inlined array, a heap block (identified by an allocation counter so that
ownership transfer is observable), or `nullptr` (the state after
`DynBuf::clear`). -/
inductive Backing
  | inline
  | heap (id : Nat)
  | null
deriving DecidableEq

/-- Observable state of a `SmallBufImpl`: `data` is the first `Size` bytes
behind the `Data` pointer (bytes beyond `Size` are not observable through
the container interface), `cap` is `Capacity`, `backing` classifies `Data`. -/
structure SB where
  data : List Nat
  cap : Nat
  backing : Backing
deriving DecidableEq

/-- `SmallBufImpl::tryReserve` (Slimfmt.cpp:226): grow to
`max(OldCapacity * 2, Cap)` in a freshly allocated heap block, copying the
stored bytes; the old block is freed unless it was the inline array.  `ctr`
supplies fresh heap block ids; the `size_t` doubling wraps `% 2^64`. -/
def SB.tryReserve (b : SB) (cap : Nat) (ctr : Nat) : SB × Nat :=
  if cap ≤ b.cap then (b, ctr)
  else
    let newCap := max (b.cap * 2 % 2 ^ 64) cap
    ({ data := b.data, cap := newCap, backing := .heap ctr }, ctr + 1)

/-- `SmallBufImpl::pushBack` (Slimfmt.cpp hpp part, line 1640). -/
def SB.pushBack (b : SB) (c : Nat) (ctr : Nat) : SB × Nat :=
  let r := b.tryReserve (b.data.length + 1) ctr
  ({ r.1 with data := r.1.data ++ [c] }, r.2)

/-- `SmallBufImpl::append(Begin, End)` (Slimfmt.cpp:199). -/
def SB.appendBytes (b : SB) (l : List Nat) (ctr : Nat) : SB × Nat :=
  if l.length = 0 then (b, ctr)
  else
    let r := b.tryReserve (b.data.length + l.length) ctr
    ({ r.1 with data := r.1.data ++ l }, r.2)

/-- `SmallBufImpl::tryResize(Count)` (Slimfmt.cpp hpp part, line 1693):
reserve, then `Size = min(Count, Capacity)`.  When the size grows, the new
bytes are whatever the block holds (unspecified in C++); byte 0 stands in
for them here. -/
def SB.tryResize (b : SB) (count : Nat) (ctr : Nat) : SB × Nat :=
  let r := b.tryReserve count ctr
  ({ r.1 with
      data := (r.1.data ++ List.replicate (count - r.1.data.length) 0).take
        (min count r.1.cap) }, r.2)

/-- `SmallBufImpl::tryResize(Count, Fill)` via `tryResizeForFill`
(Slimfmt.cpp:211): when `Count > Size`, the bytes at `[OldSize, Size)` are
memset to `Fill` after the plain resize. -/
def SB.tryResizeFill (b : SB) (count : Nat) (fillByte : Nat) (ctr : Nat) :
    SB × Nat :=
  let doFill := b.data.length < count
  let r := b.tryResize count ctr
  if doFill then
    ({ r.1 with data := r.1.data.take b.data.length ++
        List.replicate (r.1.data.length - b.data.length) fillByte }, r.2)
  else r

/-- `SmallBufImpl::fill` (Slimfmt.cpp hpp part, line 1683). -/
def SB.fillBytes (b : SB) (count : Nat) (c : Nat) (ctr : Nat) : SB × Nat :=
  b.tryResizeFill (b.data.length + count) c ctr

/-- `SmallBufImpl::reserveBack` (Slimfmt.cpp hpp part, line 1689). -/
def SB.reserveBack (b : SB) (count : Nat) (ctr : Nat) : SB × Nat :=
  b.tryReserve (b.data.length + count) ctr

/-- `SmallBufImpl::deallocateIfDynamic` (Slimfmt.cpp:281): free the heap
block (if dynamic) then `clearOrReset`: a dynamic (or null) buffer is fully
cleared (`Data = nullptr`, `Capacity = 0`), an inline one only resets its
size. -/
def SB.deallocateIfDynamic (b : SB) : SB :=
  if b.backing = .inline then { b with data := [] }
  else { data := [], cap := 0, backing := .null }

/-- `SmallBuf<N>::wipe` (Slimfmt.cpp hpp part, line 1828):
`deallocateIfDynamic` then `setBufferAndCapacity(getBufPtr(), N)`.  For
`N = 0` the inline pointer is null, so `tweakBuffer` bumps the capacity to 1
and allocates a heap block. -/
def SB.wipe (_b : SB) (n : Nat) (ctr : Nat) : SB × Nat :=
  if n = 0 then ({ data := [], cap := 1, backing := .heap ctr }, ctr + 1)
  else ({ data := [], cap := n, backing := .inline }, ctr)

/-- `SmallBufImpl::cloneOrTakeBuffer` (Slimfmt.cpp:267).  In the take arm,
`setBufferAndCapacity` adopts the other buffer's pointer and capacity but
leaves `Size` at the 0 set by the preceding `deallocateIfDynamic`, so the
taken bytes are not observable; the source is cleared via `clearUnsafe`. -/
def SB.cloneOrTakeBuffer (dst src : SB) (ctr : Nat) : SB × SB × Nat :=
  let t := dst.deallocateIfDynamic
  if src.backing = .inline then
    let r1 := t.tryReserve src.cap ctr
    let r2 := r1.1.appendBytes src.data r1.2
    (r2.1, { src with data := [] }, r2.2)
  else
    ({ data := [], cap := src.cap, backing := src.backing },
      { data := [], cap := 0, backing := .null }, ctr)

/-- `SmallBufImpl::move` (Slimfmt.cpp:247).  `self` is `&Other == this`. -/
def SB.move (self : Bool) (dst src : SB) (ctr : Nat) : SB × SB × Nat :=
  if self then (dst, src, ctr)
  else if src.data.length = 0 then
    ({ dst with data := [] }, { src with data := [] }, ctr)
  else if dst.cap < src.cap then
    SB.cloneOrTakeBuffer dst src ctr
  else
    let r := SB.appendBytes { dst with data := [] } src.data ctr
    (r.1, src.deallocateIfDynamic, r.2)

/-! ## Argument values (`FmtValue`) -/

/-- `FmtValue` (Slimfmt.cpp hpp part, line 1958): the tagged union.  A
`cstring` carries its pointer value (`addr`, 0 for null) and the bytes up to
the terminating NUL (`none` for a null pointer); `generic` carries the bytes
its `format_custom` callback appends through the formatter handle (every
callback in this repository only appends). -/
inductive FmtVal
  | char (c : Nat)
  | signed (v : Int)
  | unsigned (v : Nat)
  | signedLL (v : Int)
  | unsignedLL (v : Nat)
  | ptr (a : Nat)
  | cstring (addr : Nat) (s : Option (List Nat))
  | stdString (s : List Nat)
  | stringView (s : List Nat)
  | generic (out : List Nat)
deriving DecidableEq

/-- `FmtValue::isSIntType` (Slimfmt.cpp:300). -/
def FmtVal.isSInt (p : Bool) : FmtVal → Bool
  | .char _ => p
  | .signed _ | .signedLL _ => true
  | _ => false

/-- `FmtValue::isUIntType` (Slimfmt.cpp:306). -/
def FmtVal.isUInt (p : Bool) : FmtVal → Bool
  | .char _ => p
  | .unsigned _ | .unsignedLL _ => true
  | _ => false

/-- `FmtValue::isIntType` (Slimfmt.cpp:312). -/
def FmtVal.isInt (p : Bool) : FmtVal → Bool
  | .char _ => p
  | .signed _ | .unsigned _ | .signedLL _ | .unsignedLL _ => true
  | _ => false

/-- `FmtValue::isStrType` (Slimfmt.cpp:319). -/
def FmtVal.isStr (p : Bool) : FmtVal → Bool
  | .char _ => p
  | .cstring _ _ | .stdString _ | .stringView _ => true
  | _ => false

/-- `FmtValue::isCharType` (Slimfmt.cpp:326).  NOTE: in permissive mode this
tests for a STRING type (`isStrType(false)`) and thus returns `false` for an
actual char. -/
def FmtVal.isChar (p : Bool) (v : FmtVal) : Bool :=
  if !p then (match v with | .char _ => true | _ => false)
  else v.isStr false

/-- `FmtValue::isPtrType` (Slimfmt.cpp hpp part, line 2013). -/
def FmtVal.isPtr (p : Bool) : FmtVal → Bool
  | .cstring _ _ => p
  | .ptr _ => true
  | _ => false

/-- `FmtValue::isGenericType`. -/
def FmtVal.isGeneric : FmtVal → Bool
  | .generic _ => true
  | _ => false

/-- Two's-complement reinterpretation of a `u64` as an `i64` (the
implementation-defined gcc/clang behavior of the C++ narrowing). -/
def u64ToI64 (v : Nat) : Int := if v < 2 ^ 63 then (v : Int) else (v : Int) - 2 ^ 64

/-- Conversion of a signed value to `u64` (mod `2^64`). -/
def i64ToU64 (v : Int) : Nat := (v % 2 ^ 64).toNat

/-- `FmtValue::getInt` (Slimfmt.cpp:332): `long long` result. -/
def FmtVal.getInt (p : Bool) (v : FmtVal) : Int :=
  if !(v.isInt p) then 0
  else match v with
    | .signed n => n
    | .signedLL n => n
    | .unsigned n => (n : Int)
    | .unsignedLL n => u64ToI64 n
    | .char c => charSVal c
    | _ => 0

/-- `FmtValue::getUInt` (Slimfmt.cpp:352): `unsigned long long` result. -/
def FmtVal.getUInt (p : Bool) (v : FmtVal) : Nat :=
  if !(v.isInt p) then 0
  else match v with
    | .unsigned n => n
    | .unsignedLL n => n
    | .signed n => i64ToU64 n
    | .signedLL n => i64ToU64 n
    | .char c => i64ToU64 (charSVal c)
    | _ => 0

/-- `FmtValue::getChar` (Slimfmt.cpp:372). -/
def FmtVal.getChar (p : Bool) (v : FmtVal) : Nat :=
  if !(v.isChar p) then 0
  else match v with
    | .char c => c
    | .cstring _ Option.none => 32
    | .cstring _ (some []) => 0
    | .cstring _ (some (c :: _)) => c
    | .stdString [] => 32
    | .stdString (c :: _) => c
    | .stringView [] => 32
    | .stringView (c :: _) => c
    | _ => 0

/-- `FmtValue::getStr` (Slimfmt.cpp:402): the `{pointer, length}` pair;
`none` is a null pointer. -/
def FmtVal.getStr (p : Bool) (v : FmtVal) : Option (List Nat) × Nat :=
  if !(v.isStr p) then (Option.none, 0)
  else match v with
    | .cstring _ Option.none => (Option.none, 0)
    | .cstring _ (some s) => (some s, s.length)
    | .stdString s => (some s, s.length)
    | .stringView s => (some s, s.length)
    | .char c => (some [c], 1)
    | _ => (Option.none, 0)

/-- `FmtValue::getPtr` (Slimfmt.cpp:432) reinterpreted as an address
(`reinterpret_cast<uintptr_t>`); both a null result and a stored null
pointer are address 0. -/
def FmtVal.getPtrAddr (p : Bool) (v : FmtVal) : Nat :=
  if !(v.isPtr p) then 0
  else match v with
    | .ptr a => a
    | .cstring a _ => a
    | _ => 0

/-! ## Replacement descriptors and spec parsing -/

/-- `ExtraType` (Slimfmt.cpp hpp part, line 2121). -/
inductive ExtraType
  | noExtra
  | uppercase
  | charE
  | ptrE
deriving DecidableEq

/-- `AlignType` (Slimfmt.cpp hpp part, line 2126); `Default = Left`. -/
inductive AlignType
  | left
  | right
  | center
deriving DecidableEq

/-- `FmtReplacement::RType`. -/
inductive RType
  | empty
  | literal
  | format
deriving DecidableEq

/-- `FmtReplacement` (Slimfmt.cpp hpp part, line 2161): `base` is the raw
`int64` carried by `BaseSink` (`Default = 10`, `Invalid = -1`). -/
structure FmtReplacement where
  type : RType
  data : List Nat
  base : Int
  extra : ExtraType
  align : Nat
  side : AlignType
  pad : Nat
deriving DecidableEq

/-- `FmtReplacement::dynamicAlign = ~size_t(0)`. -/
def dynamicAlign : Nat := 2 ^ 64 - 1

/-- A default-constructed `FmtReplacement()` (member initializers:
`Empty`, empty data, base `Default = 10`, extra `None`, align 0, side
`Default = Left`, pad `'\0'`). -/
def FmtReplacement.init : FmtReplacement :=
  ⟨.empty, [], 10, .noExtra, 0, .left, 0⟩

/-- `FmtReplacement(StrView)`: a literal run (remaining members at their
defaults). -/
def litRepl (s : List Nat) : FmtReplacement :=
  ⟨.literal, s, 10, .noExtra, 0, .left, 0⟩

/-- The maximal leading run of decimal digits (what `std::from_chars`
consumes). -/
def digitSpan : List Nat → List Nat
  | [] => []
  | c :: rest => if 48 ≤ c ∧ c ≤ 57 then c :: digitSpan rest else []

/-- Value of a digit string. -/
def digitsVal (l : List Nat) : Nat := l.foldl (fun acc c => acc * 10 + (c - 48)) 0

/-- `doFromChars` (Slimfmt.cpp:1001): `std::from_chars` onto `size_t`; on
error (no digits, or a value that does not fit `size_t`) it reports and
returns 0. -/
def doFromChars (s : List Nat) : Nat :=
  let ds := digitSpan s
  if ds = [] then 0
  else if digitsVal ds ≥ 2 ^ 64 then 0
  else digitsVal ds

/-- Index of the first element satisfying `p` (`none` when there is none);
the building block of the `find_first_of` / `find_first_not_of` calls. -/
def findIdxF (p : Nat → Bool) : List Nat → Option Nat
  | [] => Option.none
  | c :: rest => if p c then some 0 else (findIdxF p rest).map (· + 1)

/-- `parseRSpecSide` (Slimfmt.cpp:1036): consumes one byte whenever the spec
is nonempty; unknown bytes fall to `Default` (= Left) with a debug assert. -/
def parseRSpecSide (spec : List Nat) : AlignType × List Nat :=
  match spec with
  | [] => (.left, [])
  | c :: rest =>
    match c with
    | 43 | 60 => (.left, rest)
    | 61 | 32 => (.center, rest)
    | 45 | 62 => (.right, rest)
    | _ => (.left, rest)

/-- `parseRSpecAlign` (Slimfmt.cpp:1059): `*` is the dynamic marker,
otherwise the bytes up to the next `%` (or the end) go through
`doFromChars`. -/
def parseRSpecAlign (spec : List Nat) : Nat × List Nat :=
  match spec with
  | [] => (0, [])
  | c :: rest =>
    if c = 42 then (dynamicAlign, rest)
    else
      let cnt := (findIdxF (· == 37) (c :: rest)).getD (c :: rest).length
      (doFromChars ((c :: rest).take cnt), (c :: rest).drop cnt)

/-- ASCII `std::isalpha` (C locale). -/
def isAlphaByte (c : Nat) : Bool :=
  decide ((65 ≤ c ∧ c ≤ 90) ∨ (97 ≤ c ∧ c ≤ 122))

/-- The `switch (S[0])` of `parseRSpecOptions` (Slimfmt.cpp:1095), given the
`Base`/`Extra` possibly set by the suffix recursion.  `R`/`r` parse the rest
through `doFromChars` (the `size_t` is narrowed to the `int64` `BaseSink`,
wrapping); `R`, `H`, `X` force uppercase; `p`/`P` force Hex and the `Ptr`
extra; `c`/`C` the `Char` extra; unknown bytes leave both unchanged. -/
def parseOptSwitch (s : List Nat) (base : Int) (extra : ExtraType) :
    Int × ExtraType :=
  match s with
  | [] => (base, extra)
  | c :: rest =>
    match c with
    | 82 => (u64ToI64 (doFromChars rest), .uppercase)
    | 114 => (u64ToI64 (doFromChars rest), extra)
    | 66 | 98 => (2, extra)
    | 79 | 111 => (8, extra)
    | 68 | 100 => (10, extra)
    | 72 | 88 => (16, .uppercase)
    | 120 | 104 => (16, extra)
    | 80 | 112 => (16, .ptrE)
    | 67 | 99 => (base, .charE)
    | _ => (base, extra)

/-- `parseRSpecOptions` (Slimfmt.cpp:1077).  When the spec has more than one
byte and ends in a letter, that letter is processed first (the recursive
call, necessarily on a single character) and the remaining head may
overwrite parts of its result. -/
def parseRSpecOptions (s : List Nat) : Int × ExtraType :=
  match s with
  | [] => (10, .noExtra)
  | _ =>
    if s.length > 1 ∧ isAlphaByte (s.getLast?.getD 0) then
      let be := parseOptSwitch [s.getLast?.getD 0] 10 .noExtra
      parseOptSwitch s.dropLast be.1 be.2
    else parseOptSwitch s 10 .noExtra

/-- `Formatter::parseReplacementSpec` (Slimfmt.cpp:1157): the C++ boolean
result together with the new `ParsedReplacement`.  The pad check is
`Pad < ' ' || Pad > 0x7F` on the (signed) `char`. -/
def parseReplacementSpec (spec : List Nat) : Bool × FmtReplacement :=
  match spec with
  | [] => (true, ⟨.format, spec, 10, .noExtra, 0, .left, 32⟩)
  | c :: rest =>
    if c = 58 then
      match rest with
      | [] => (false, FmtReplacement.init)
      | p :: rest1 =>
        let pad := if charSVal p < 32 ∨ charSVal p > 127 then 32 else p
        let sr := parseRSpecSide rest1
        let ar := parseRSpecAlign sr.2
        if ar.2 = [] then
          (true, ⟨.format, spec, 10, .noExtra, ar.1, sr.1, pad⟩)
        else if ar.2.head? ≠ some 37 ∨ ar.2.length ≤ 1 then
          (false, FmtReplacement.init)
        else
          let be := parseRSpecOptions (ar.2.drop 1)
          (true, ⟨.format, spec, be.1, be.2, ar.1, sr.1, pad⟩)
    else if some c ≠ some 37 ∨ (c :: rest).length ≤ 1 then
      (false, FmtReplacement.init)
    else
      let be := parseRSpecOptions rest
      (true, ⟨.format, spec, be.1, be.2, 0, .left, 32⟩)

/-- `find_first_of`: index of the first occurrence, `none` for `npos`. -/
def ffo (s : List Nat) (c : Nat) : Option Nat := findIdxF (· == c) s

/-- `find_first_not_of`. -/
def ffno (s : List Nat) (c : Nat) : Option Nat := findIdxF (· != c) s

/-- `Formatter::collectBraces` (Slimfmt.cpp:1029): the maximal leading run
of `'{'` — but the EMPTY string when the whole remaining format consists of
braces (`find_first_not_of` returns `npos`). -/
def collectBraces (s : List Nat) : List Nat :=
  match ffno s 123 with
  | Option.none => []
  | some i => s.take i

/-- `Formatter::parseNextReplacement` (Slimfmt.cpp:1204): the C++ boolean
result, the remaining format string, and the new `ParsedReplacement`
(`cur` wherever the C++ leaves the member untouched). -/
def parseNextReplacement (fmt : List Nat) (cur : FmtReplacement) :
    Bool × List Nat × FmtReplacement :=
  match fmt with
  | [] => (false, [], cur)
  | c :: _ =>
    if c ≠ 123 then
      let n := (ffo fmt 123).getD fmt.length
      (true, fmt.drop n, litRepl (fmt.take n))
    else
      let braces := collectBraces fmt
      if braces.length > 1 then
        let n := braces.length / 2
        (true, fmt.drop (n * 2), litRepl (fmt.take n))
      else
        match ffo fmt 125 with
        | Option.none => (false, [], litRepl fmt)
        | some bclose =>
          let nextOpen := (ffo (fmt.drop 1) 123).map (· + 1)
          match nextOpen with
          | some no =>
            if no < bclose then (true, fmt.drop no, litRepl (fmt.take no))
            else
              let pr := parseReplacementSpec ((fmt.drop 1).take (bclose - 1))
              (pr.1, fmt.drop (bclose + 1), pr.2)
          | Option.none =>
            let pr := parseReplacementSpec ((fmt.drop 1).take (bclose - 1))
            (pr.1, fmt.drop (bclose + 1), pr.2)

/-! ## Writers and the engine (`Formatter`) -/

/-- `Formatter::CountDigits(long long, BaseSink)` (Slimfmt.cpp:832):
`llabs` then the unsigned count, plus one for the sign. -/
def CountDigitsS (v : Int) (base : Int) : Nat :=
  CountDigitsU v.natAbs base + (if v < 0 then 1 else 0)

/-- `Formatter::write(unsigned long long)` (Slimfmt.cpp:943): zero emits
`'0'`; otherwise the base dispatch runs with uppercase forced by the
`Uppercase` or `Ptr` extras. -/
def writeUInt (repl : FmtReplacement) (v : Nat) : Bool × List Nat :=
  if v = 0 then (true, [48])
  else
    let upper : Bool := decide (repl.extra = .uppercase ∨ repl.extra = .ptrE)
    WriteU upper v repl.base

/-- `Formatter::write(long long)` (Slimfmt.cpp:959): `'-'` then the absolute
value (`llabs`; its undefined behavior on the most negative value is
smoothed to `Int.natAbs` here). -/
def writeSInt (repl : FmtReplacement) (v : Int) : Bool × List Nat :=
  let ub := writeUInt repl v.natAbs
  (ub.1, (if v < 0 then [45] else []) ++ ub.2)

/-- `Formatter::write(const void*)` (Slimfmt.cpp:966): pushes `'0'`, then
the literal `'z'` (the per-base `"bodx"` lookup is commented out in the
source), then the address through the unsigned writer. -/
def writePtr (repl : FmtReplacement) (a : Nat) : Bool × List Nat :=
  let ub := writeUInt repl a
  (ub.1, 48 :: 122 :: ub.2)

/-- `Formatter::write(FmtValue::StrAndLen)` (Slimfmt.cpp:980): `false` for a
null pointer, else append the `Len` bytes. -/
def writeStr (sl : Option (List Nat) × Nat) : Bool × List Nat :=
  match sl.1 with
  | Option.none => (false, [])
  | some s => (true, s)

/-- `Formatter::write(FmtValue)` (Slimfmt.cpp:919): category dispatch in
source order.  `none` marks the final `SLIMFMT_UNREACHABLE` (undefined
behavior) — which IS reachable for an actual char argument under the `c`
extra, since `isCharType(true)` tests for a string type. -/
def writeValue (repl : FmtReplacement) (v : FmtVal) : Option (Bool × List Nat) :=
  let charPerm : Bool := decide (repl.extra = .charE)
  let ptrPerm : Bool := decide (repl.extra = .ptrE)
  match v with
  | .generic g => some (true, g)
  | _ =>
    if v.isSInt false then some (writeSInt repl (v.getInt false))
    else if v.isUInt false then some (writeUInt repl (v.getUInt false))
    else if v.isPtr ptrPerm then some (writePtr repl (v.getPtrAddr ptrPerm))
    else if v.isChar charPerm then some (true, [v.getChar charPerm])
    else if v.isStr false then some (writeStr (v.getStr false))
    else Option.none

/-- `Formatter::getValueSize` (Slimfmt.cpp:842): the predicted width, 0 for
generic values.  (The trailing `SLIMFMT_UNREACHABLE` is genuinely
unreachable: the predicates cover every non-generic tag.) -/
def getValueSize (repl : FmtReplacement) (v : FmtVal) : Nat :=
  if v.isGeneric then 0
  else if v.isSInt false then CountDigitsS (v.getInt false) repl.base
  else if v.isUInt false then CountDigitsU (v.getUInt false) repl.base
  else if v.isPtr (decide (repl.extra = .ptrE)) then
    CountDigitsU (v.getPtrAddr true) repl.base + 2
  else if v.isChar false then 1
  else if v.isStr false then
    (if repl.extra = .charE then 1 else (v.getStr false).2)
  else 0

/-- `Formatter::formatValue` (Slimfmt.cpp:872): generics are passed off
early; an `Invalid` base fills `max(Len, Align)` pad bytes and fails; a
width not exceeding the value length writes directly; otherwise the pad
bytes go after (Left), around (Center, odd remainder to the right), or
before (Right) the value. -/
def formatValue (repl : FmtReplacement) (v : FmtVal) : Option (Bool × List Nat) :=
  match v with
  | .generic g => some (true, g)
  | _ =>
    let len := getValueSize repl v
    if repl.base = -1 then
      some (false, List.replicate (max len repl.align) repl.pad)
    else if repl.align < len then
      writeValue repl v
    else
      let total := repl.align - len
      match repl.side with
      | .left =>
        (writeValue repl v).map fun rb =>
          (rb.1, rb.2 ++ List.replicate total repl.pad)
      | .center =>
        let half := total / 2
        (writeValue repl v).map fun rb =>
          (rb.1, List.replicate half repl.pad ++ rb.2 ++
            List.replicate (total - half) repl.pad)
      | .right =>
        (writeValue repl v).map fun rb =>
          (rb.1, List.replicate total repl.pad ++ rb.2)

/-- `Formatter::parseWith` (Slimfmt.cpp:1293), fueled (every true
`parseNextReplacement` consumes at least one byte of the format string, so
`fmt.length + 1` suffices; see `parseNextReplacement_progress`).  The values
are consumed from the front (`FmtValueSpan::take`).  The result is the final
buffer; `none` models undefined behavior: the engine dereferences the null
pointer `take()` returns when a dynamic-width field finds no value left. -/
def parseWithF (fuel : Nat) (fmt : List Nat) (cur : FmtReplacement)
    (vals : List FmtVal) (buf : List Nat) : Option (List Nat) :=
  match fuel with
  | 0 => some buf
  | fuel + 1 =>
    let pn := parseNextReplacement fmt cur
    if !pn.1 then some buf
    else if pn.2.2.type = .empty then some buf
    else if pn.2.2.type = .literal then
      parseWithF fuel pn.2.1 pn.2.2 vals (buf ++ pn.2.2.data)
    else
      let step : Option (FmtReplacement × List FmtVal) :=
        if pn.2.2.align = dynamicAlign then
          match vals with
          | [] => Option.none
          | a :: rest => some ({ pn.2.2 with align := i64ToU64 (a.getInt true) }, rest)
        else some (pn.2.2, vals)
      match step with
      | Option.none => Option.none
      | some (repl1, vals1) =>
        match vals1 with
        | [] => some buf
        | a :: rest =>
          match formatValue repl1 a with
          | Option.none => Option.none
          | some (ok2, bs) =>
            if ok2 then parseWithF fuel pn.2.1 repl1 rest (buf ++ bs)
            else some (buf ++ bs)

/-- `Formatter::parseWith` from a fresh `Formatter {Buf, Str}` with an empty
buffer. -/
def parseWith (fmt : List Nat) (vals : List FmtVal) : Option (List Nat) :=
  parseWithF (fmt.length + 1) fmt FmtReplacement.init vals []

/-- `sfmt::format` (Slimfmt.cpp hpp part, line 2259): the string-literal
reference of size `N` is handed to the engine as `{Str, N}` — all `N` bytes
including the terminating NUL — and the buffer is returned as a string. -/
def formatAPI (s : List Nat) (vals : List FmtVal) : Option (List Nat) :=
  parseWith (s ++ [0]) vals

/-! ### Renderer facts -/

lemma log2F_eq (fuel : Nat) : ∀ n, n ≤ fuel → log2F fuel n = Nat.log 2 n := by
  induction fuel with
  | zero =>
    intro n hn
    have : n = 0 := by omega
    subst this
    simp [log2F]
  | succ fuel ih =>
    intro n hn
    rw [log2F]
    by_cases h2 : n ≥ 2
    · rw [if_pos h2, ih (n / 2) (by omega)]
      have hpos := Nat.log_pos (b := 2) (by omega) (by omega : 2 ≤ n)
      rw [Nat.log_div_base]
      omega
    · rw [if_neg h2]
      symm
      rw [Nat.log_eq_zero_iff]
      omega

lemma lor_one_eq (v : Nat) : v ||| 1 = 2 * (v / 2) + 1 := by
  have h1 : (1 : Nat) = Nat.bit true 0 := by simp [Nat.bit_val]
  rcases Nat.even_or_odd v with ⟨m, hm⟩ | ⟨m, hm⟩
  · have hv : v = Nat.bit false m := by simp [Nat.bit_val]; omega
    rw [hv, h1, Nat.lor_bit]
    simp [Nat.bit_val]
    try omega
  · have hv : v = Nat.bit true m := by simp [Nat.bit_val]; omega
    rw [hv, h1, Nat.lor_bit]
    simp [Nat.bit_val]
    try omega

lemma intLog2_eq (v : Nat) : intLog2 v = Nat.log 2 (v ||| 1) := by
  have h := lor_one_eq v
  exact log2F_eq _ _ (by omega)

lemma intLog2_eq_log (v : Nat) (hv : 1 ≤ v) : intLog2 v = Nat.log 2 v := by
  rw [intLog2_eq, lor_one_eq]
  rcases Nat.even_or_odd v with ⟨m, hm⟩ | ⟨m, hm⟩
  · -- v even: v ||| 1 = v + 1, and v + 1 is odd so no power of two is crossed
    have hv2 : 2 * (v / 2) + 1 = v + 1 := by omega
    rw [hv2]
    apply le_antisymm
    · have hk := Nat.lt_pow_succ_log_self (b := 2) (by omega) v
      have hpow : (2 : Nat) ^ (Nat.log 2 v + 1) = 2 ^ (Nat.log 2 v) * 2 :=
        pow_succ 2 _
      have hne : v + 1 ≠ 2 ^ (Nat.log 2 v + 1) := by omega
      have hlt : v + 1 < 2 ^ (Nat.log 2 v + 1) := by omega
      have := Nat.log_lt_of_lt_pow (by omega : v + 1 ≠ 0) hlt
      omega
    · exact Nat.log_mono_right (by omega)
  · have hv2 : 2 * (v / 2) + 1 = v := by omega
    rw [hv2]

lemma gCountF_eq (fuel b : Nat) (hb : 2 ≤ b) :
    ∀ v, v < fuel → gCountF fuel b v = Nat.log b v + 1 := by
  induction fuel with
  | zero => omega
  | succ fuel ih =>
    intro v hv
    have e2 : b * b = b ^ 2 := by ring
    have e3 : b * (b * b) = b ^ 3 := by ring
    have e4 : b * b * (b * b) = b ^ 4 := by ring
    rw [gCountF]
    by_cases h1 : v < b
    · rw [if_pos h1]
      rw [Nat.log_eq_zero_iff.mpr (Or.inl h1)]
    · rw [if_neg h1]
      by_cases h2 : v < b * b
      · rw [if_pos h2, Nat.log_eq_of_pow_le_of_lt_pow
          (by rw [pow_one]; omega) (by rw [← e2]; omega)]
      · rw [if_neg h2]
        by_cases h3 : v < b * (b * b)
        · rw [if_pos h3, Nat.log_eq_of_pow_le_of_lt_pow
            (by rw [← e2]; omega) (by rw [← e3]; omega)]
        · rw [if_neg h3]
          by_cases h4 : v < b * b * (b * b)
          · rw [if_pos h4, Nat.log_eq_of_pow_le_of_lt_pow
              (by rw [← e3]; omega) (by rw [← e4]; omega)]
          · rw [if_neg h4]
            have h16 : 2 * 2 * (2 * 2) ≤ b * b * (b * b) :=
              Nat.mul_le_mul (Nat.mul_le_mul hb hb) (Nat.mul_le_mul hb hb)
            have hrec : v / (b * b * (b * b)) < v :=
              Nat.div_lt_self (by omega) (by omega)
            rw [ih _ (by omega)]
            have hdiv : v / b / b / b / b = v / (b * b * (b * b)) := by
              rw [Nat.div_div_eq_div_mul, Nat.div_div_eq_div_mul,
                Nat.div_div_eq_div_mul]
              congr 1
              ring
            have h4le : 4 ≤ Nat.log b v :=
              (Nat.pow_le_iff_le_log (by omega) (by omega)).mp (by rw [← e4]; omega)
            have hlogd : Nat.log b (v / (b * b * (b * b))) = Nat.log b v - 4 := by
              rw [← hdiv, Nat.log_div_base, Nat.log_div_base, Nat.log_div_base,
                Nat.log_div_base]
              omega
            omega

lemma gCount_eq (b v : Nat) (hb : 2 ≤ b) : gCount b v = Nat.log b v + 1 :=
  gCountF_eq _ b hb v (by omega)

lemma gWriteF_len (fuel : Nat) (u : Bool) (b : Nat) (hb : 2 ≤ b) :
    ∀ v, v < fuel →
      (gWriteF fuel u b v).length = if v = 0 then 0 else Nat.log b v + 1 := by
  induction fuel with
  | zero => omega
  | succ fuel ih =>
    intro v hv
    rw [gWriteF]
    by_cases h0 : v = 0
    · rw [if_pos h0, if_pos h0]
      rfl
    · have hvb_lt : v / b < v := Nat.div_lt_self (by omega) (by omega)
      rw [if_neg h0, if_neg h0, List.length_append, List.length_singleton,
        ih (v / b) (by omega)]
      by_cases hvb : v < b
      · rw [if_pos (Nat.div_eq_of_lt hvb), Nat.log_eq_zero_iff.mpr (Or.inl hvb)]
      · have hne : v / b ≠ 0 := by
          have h1 : 1 ≤ v / b := (Nat.one_le_div_iff (by omega)).mpr (by omega)
          omega
        rw [if_neg hne]
        have hpos := Nat.log_pos (b := b) (by omega) (by omega : b ≤ v)
        rw [Nat.log_div_base]
        omega

lemma gWrite_len (u : Bool) (b v : Nat) (hb : 2 ≤ b) :
    (gWrite u b v).length = if v = 0 then 0 else Nat.log b v + 1 :=
  gWriteF_len _ u b hb v (by omega)

lemma pow2WriteF_len (fuel : Nat) (u : Bool) (b s : Nat) (hs : 1 ≤ s) :
    ∀ v, v < fuel →
      (pow2WriteF fuel u b s v).length = Nat.log (2 ^ s) v + 1 := by
  induction fuel with
  | zero => omega
  | succ fuel ih =>
    intro v hv
    have h2s : 2 ≤ 2 ^ s := by
      calc 2 = 2 ^ 1 := rfl
      _ ≤ 2 ^ s := Nat.pow_le_pow_right (by omega) hs
    rw [pow2WriteF]
    by_cases h0 : v / 2 ^ s = 0
    · rw [if_pos h0]
      have hlt : v < 2 ^ s := by
        by_contra hge
        have h1 : 1 ≤ v / 2 ^ s := (Nat.one_le_div_iff (by omega)).mpr (by omega)
        omega
      rw [Nat.log_eq_zero_iff.mpr (Or.inl hlt)]
      rfl
    · rw [if_neg h0, List.length_append, List.length_singleton]
      have hge : 2 ^ s ≤ v := by
        by_contra hlt
        exact h0 (Nat.div_eq_of_lt (by omega))
      rw [ih (v / 2 ^ s) (by
        have := Nat.div_lt_self (by omega : 0 < v) (by omega : 1 < 2 ^ s)
        omega)]
      have hpos := Nat.log_pos (b := 2 ^ s) (by omega) hge
      rw [Nat.log_div_base]
      omega

lemma log_two_pow_div (s v : Nat) (hs : 1 ≤ s) :
    Nat.log (2 ^ s) v = Nat.log 2 v / s := by
  rcases Nat.eq_zero_or_pos v with rfl | hv
  · simp
  · have h2s : 2 ≤ 2 ^ s := by
      calc 2 = 2 ^ 1 := rfl
      _ ≤ 2 ^ s := Nat.pow_le_pow_right (by omega) hs
    set k := Nat.log 2 v with hk
    obtain ⟨hq, hr⟩ : s * (k / s) + k % s = k ∧ k % s < s :=
      ⟨Nat.div_add_mod k s, Nat.mod_lt _ (by omega)⟩
    apply Nat.log_eq_of_pow_le_of_lt_pow
    · calc (2 ^ s) ^ (k / s) = 2 ^ (s * (k / s)) := by rw [← pow_mul]
      _ ≤ 2 ^ k := Nat.pow_le_pow_right (by omega) (by omega)
      _ ≤ v := Nat.pow_log_le_self 2 (by omega)
    · calc v < 2 ^ (k + 1) := Nat.lt_pow_succ_log_self (by omega) v
      _ ≤ 2 ^ (s * (k / s + 1)) := by
          apply Nat.pow_le_pow_right (by omega)
          rw [Nat.mul_succ]
          omega
      _ = (2 ^ s) ^ (k / s + 1) := by rw [← pow_mul]

lemma decWriteF_len (fuel : Nat) :
    ∀ v, v < fuel → (decWriteF fuel v).length = Nat.log 10 v + 1 := by
  induction fuel with
  | zero => omega
  | succ fuel ih =>
    intro v hv
    rw [decWriteF]
    by_cases h100 : v < 100
    · rw [if_pos h100]
      by_cases h10 : v < 10
      · rw [if_pos h10, Nat.log_eq_zero_iff.mpr (Or.inl h10)]
        rfl
      · rw [if_neg h10, Nat.log_eq_of_pow_le_of_lt_pow
          (by rw [pow_one]; omega) (by norm_num; omega)]
        rfl
    · rw [if_neg h100, List.length_append,
        ih (v / 100) (by omega)]
      have hdiv : v / 10 / 10 = v / 100 := by
        rw [Nat.div_div_eq_div_mul]
      have h2le : 2 ≤ Nat.log 10 v :=
        (Nat.pow_le_iff_le_log (by omega) (by omega)).mp (by norm_num; omega)
      have hlogd : Nat.log 10 (v / 100) = Nat.log 10 v - 2 := by
        rw [← hdiv, Nat.log_div_base, Nat.log_div_base]
        omega
      rw [hlogd]
      simp [twoDigits]
      omega

lemma decWrite_len (v : Nat) : (decWrite v).length = Nat.log 10 v + 1 :=
  decWriteF_len _ v (by omega)

/-- The single dyadic-interval step of `IntFormat<10>::Count`: if in the
interval the digit count is `D` above the listed power of ten and `D - 1`
below it, the table formula is correct. -/
lemma decCountCase (v D P L H : Nat) (hD : 2 ≤ D)
    (hP : P = 10 ^ (D - 1)) (hL : L = 10 ^ (D - 2)) (hH : H = 10 ^ D)
    (hlo : L ≤ v) (hhi : v < H) :
    D - (if v < P then 1 else 0) = Nat.log 10 v + 1 := by
  subst hP hL hH
  rcases lt_or_le v (10 ^ (D - 1)) with h | h
  · have hlog : Nat.log 10 v = D - 2 :=
      Nat.log_eq_of_pow_le_of_lt_pow hlo (by
        have he : D - 2 + 1 = D - 1 := by omega
        rw [he]; exact h)
    rw [if_pos h, hlog]
    omega
  · have hlog : Nat.log 10 v = D - 1 :=
      Nat.log_eq_of_pow_le_of_lt_pow h (by
        have he : D - 1 + 1 = D := by omega
        rw [he]; exact hhi)
    rw [if_neg (not_lt.mpr h), hlog]
    omega

lemma decCountCase1 (v : Nat) (hhi : v < 10) :
    1 - (if v < 0 then 1 else 0) = Nat.log 10 v + 1 := by
  rw [if_neg (by omega), Nat.log_eq_zero_iff.mpr (Or.inl hhi)]

set_option maxHeartbeats 2000000 in
/-- `IntFormat<10>::Count` computes the decimal digit count for every `u64`. -/
lemma decCount_eq (v : Nat) (hv : v < 2 ^ 64) : decCount v = Nat.log 10 v + 1 := by
  rcases Nat.eq_zero_or_pos v with rfl | hpos
  · rw [Nat.log_eq_zero_iff.mpr (Or.inl (by omega : (0 : Nat) < 10))]
    decide
  · have hlog : intLog2 v = Nat.log 2 v := intLog2_eq_log v hpos
    have hkle : Nat.log 2 v ≤ 63 := by
      have h := Nat.log_lt_of_lt_pow (by omega : v ≠ 0) hv
      omega
    have hlo : 2 ^ Nat.log 2 v ≤ v := Nat.pow_log_le_self 2 (by omega)
    have hhi : v < 2 ^ (Nat.log 2 v + 1) := Nat.lt_pow_succ_log_self (by omega) v
    show decLogTable.getD (intLog2 v) 0 -
      (if v < zeroOrPow10.getD (decLogTable.getD (intLog2 v) 0) 0 then 1 else 0) =
      Nat.log 10 v + 1
    rw [hlog]
    obtain ⟨k, hk⟩ : ∃ k, Nat.log 2 v = k := ⟨_, rfl⟩
    rw [hk] at hkle hlo hhi
    rw [hk]
    interval_cases k
    · -- k = 0
      norm_num at hhi
      exact decCountCase1 v (by omega)
    · -- k = 1
      norm_num at hhi
      exact decCountCase1 v (by omega)
    · -- k = 2
      norm_num at hhi
      exact decCountCase1 v (by omega)
    · -- k = 3
      norm_num at hlo hhi
      exact decCountCase v 2 10 1 100 (by norm_num) (by norm_num) (by norm_num) (by norm_num) (by omega) (by omega)
    · -- k = 4
      norm_num at hlo hhi
      exact decCountCase v 2 10 1 100 (by norm_num) (by norm_num) (by norm_num) (by norm_num) (by omega) (by omega)
    · -- k = 5
      norm_num at hlo hhi
      exact decCountCase v 2 10 1 100 (by norm_num) (by norm_num) (by norm_num) (by norm_num) (by omega) (by omega)
    · -- k = 6
      norm_num at hlo hhi
      exact decCountCase v 3 100 10 1000 (by norm_num) (by norm_num) (by norm_num) (by norm_num) (by omega) (by omega)
    · -- k = 7
      norm_num at hlo hhi
      exact decCountCase v 3 100 10 1000 (by norm_num) (by norm_num) (by norm_num) (by norm_num) (by omega) (by omega)
    · -- k = 8
      norm_num at hlo hhi
      exact decCountCase v 3 100 10 1000 (by norm_num) (by norm_num) (by norm_num) (by norm_num) (by omega) (by omega)
    · -- k = 9
      norm_num at hlo hhi
      exact decCountCase v 4 1000 100 10000 (by norm_num) (by norm_num) (by norm_num) (by norm_num) (by omega) (by omega)
    · -- k = 10
      norm_num at hlo hhi
      exact decCountCase v 4 1000 100 10000 (by norm_num) (by norm_num) (by norm_num) (by norm_num) (by omega) (by omega)
    · -- k = 11
      norm_num at hlo hhi
      exact decCountCase v 4 1000 100 10000 (by norm_num) (by norm_num) (by norm_num) (by norm_num) (by omega) (by omega)
    · -- k = 12
      norm_num at hlo hhi
      exact decCountCase v 4 1000 100 10000 (by norm_num) (by norm_num) (by norm_num) (by norm_num) (by omega) (by omega)
    · -- k = 13
      norm_num at hlo hhi
      exact decCountCase v 5 10000 1000 100000 (by norm_num) (by norm_num) (by norm_num) (by norm_num) (by omega) (by omega)
    · -- k = 14
      norm_num at hlo hhi
      exact decCountCase v 5 10000 1000 100000 (by norm_num) (by norm_num) (by norm_num) (by norm_num) (by omega) (by omega)
    · -- k = 15
      norm_num at hlo hhi
      exact decCountCase v 5 10000 1000 100000 (by norm_num) (by norm_num) (by norm_num) (by norm_num) (by omega) (by omega)
    · -- k = 16
      norm_num at hlo hhi
      exact decCountCase v 6 100000 10000 1000000 (by norm_num) (by norm_num) (by norm_num) (by norm_num) (by omega) (by omega)
    · -- k = 17
      norm_num at hlo hhi
      exact decCountCase v 6 100000 10000 1000000 (by norm_num) (by norm_num) (by norm_num) (by norm_num) (by omega) (by omega)
    · -- k = 18
      norm_num at hlo hhi
      exact decCountCase v 6 100000 10000 1000000 (by norm_num) (by norm_num) (by norm_num) (by norm_num) (by omega) (by omega)
    · -- k = 19
      norm_num at hlo hhi
      exact decCountCase v 7 1000000 100000 10000000 (by norm_num) (by norm_num) (by norm_num) (by norm_num) (by omega) (by omega)
    · -- k = 20
      norm_num at hlo hhi
      exact decCountCase v 7 1000000 100000 10000000 (by norm_num) (by norm_num) (by norm_num) (by norm_num) (by omega) (by omega)
    · -- k = 21
      norm_num at hlo hhi
      exact decCountCase v 7 1000000 100000 10000000 (by norm_num) (by norm_num) (by norm_num) (by norm_num) (by omega) (by omega)
    · -- k = 22
      norm_num at hlo hhi
      exact decCountCase v 7 1000000 100000 10000000 (by norm_num) (by norm_num) (by norm_num) (by norm_num) (by omega) (by omega)
    · -- k = 23
      norm_num at hlo hhi
      exact decCountCase v 8 10000000 1000000 100000000 (by norm_num) (by norm_num) (by norm_num) (by norm_num) (by omega) (by omega)
    · -- k = 24
      norm_num at hlo hhi
      exact decCountCase v 8 10000000 1000000 100000000 (by norm_num) (by norm_num) (by norm_num) (by norm_num) (by omega) (by omega)
    · -- k = 25
      norm_num at hlo hhi
      exact decCountCase v 8 10000000 1000000 100000000 (by norm_num) (by norm_num) (by norm_num) (by norm_num) (by omega) (by omega)
    · -- k = 26
      norm_num at hlo hhi
      exact decCountCase v 9 100000000 10000000 1000000000 (by norm_num) (by norm_num) (by norm_num) (by norm_num) (by omega) (by omega)
    · -- k = 27
      norm_num at hlo hhi
      exact decCountCase v 9 100000000 10000000 1000000000 (by norm_num) (by norm_num) (by norm_num) (by norm_num) (by omega) (by omega)
    · -- k = 28
      norm_num at hlo hhi
      exact decCountCase v 9 100000000 10000000 1000000000 (by norm_num) (by norm_num) (by norm_num) (by norm_num) (by omega) (by omega)
    · -- k = 29
      norm_num at hlo hhi
      exact decCountCase v 10 1000000000 100000000 10000000000 (by norm_num) (by norm_num) (by norm_num) (by norm_num) (by omega) (by omega)
    · -- k = 30
      norm_num at hlo hhi
      exact decCountCase v 10 1000000000 100000000 10000000000 (by norm_num) (by norm_num) (by norm_num) (by norm_num) (by omega) (by omega)
    · -- k = 31
      norm_num at hlo hhi
      exact decCountCase v 10 1000000000 100000000 10000000000 (by norm_num) (by norm_num) (by norm_num) (by norm_num) (by omega) (by omega)
    · -- k = 32
      norm_num at hlo hhi
      exact decCountCase v 10 1000000000 100000000 10000000000 (by norm_num) (by norm_num) (by norm_num) (by norm_num) (by omega) (by omega)
    · -- k = 33
      norm_num at hlo hhi
      exact decCountCase v 11 10000000000 1000000000 100000000000 (by norm_num) (by norm_num) (by norm_num) (by norm_num) (by omega) (by omega)
    · -- k = 34
      norm_num at hlo hhi
      exact decCountCase v 11 10000000000 1000000000 100000000000 (by norm_num) (by norm_num) (by norm_num) (by norm_num) (by omega) (by omega)
    · -- k = 35
      norm_num at hlo hhi
      exact decCountCase v 11 10000000000 1000000000 100000000000 (by norm_num) (by norm_num) (by norm_num) (by norm_num) (by omega) (by omega)
    · -- k = 36
      norm_num at hlo hhi
      exact decCountCase v 12 100000000000 10000000000 1000000000000 (by norm_num) (by norm_num) (by norm_num) (by norm_num) (by omega) (by omega)
    · -- k = 37
      norm_num at hlo hhi
      exact decCountCase v 12 100000000000 10000000000 1000000000000 (by norm_num) (by norm_num) (by norm_num) (by norm_num) (by omega) (by omega)
    · -- k = 38
      norm_num at hlo hhi
      exact decCountCase v 12 100000000000 10000000000 1000000000000 (by norm_num) (by norm_num) (by norm_num) (by norm_num) (by omega) (by omega)
    · -- k = 39
      norm_num at hlo hhi
      exact decCountCase v 13 1000000000000 100000000000 10000000000000 (by norm_num) (by norm_num) (by norm_num) (by norm_num) (by omega) (by omega)
    · -- k = 40
      norm_num at hlo hhi
      exact decCountCase v 13 1000000000000 100000000000 10000000000000 (by norm_num) (by norm_num) (by norm_num) (by norm_num) (by omega) (by omega)
    · -- k = 41
      norm_num at hlo hhi
      exact decCountCase v 13 1000000000000 100000000000 10000000000000 (by norm_num) (by norm_num) (by norm_num) (by norm_num) (by omega) (by omega)
    · -- k = 42
      norm_num at hlo hhi
      exact decCountCase v 13 1000000000000 100000000000 10000000000000 (by norm_num) (by norm_num) (by norm_num) (by norm_num) (by omega) (by omega)
    · -- k = 43
      norm_num at hlo hhi
      exact decCountCase v 14 10000000000000 1000000000000 100000000000000 (by norm_num) (by norm_num) (by norm_num) (by norm_num) (by omega) (by omega)
    · -- k = 44
      norm_num at hlo hhi
      exact decCountCase v 14 10000000000000 1000000000000 100000000000000 (by norm_num) (by norm_num) (by norm_num) (by norm_num) (by omega) (by omega)
    · -- k = 45
      norm_num at hlo hhi
      exact decCountCase v 14 10000000000000 1000000000000 100000000000000 (by norm_num) (by norm_num) (by norm_num) (by norm_num) (by omega) (by omega)
    · -- k = 46
      norm_num at hlo hhi
      exact decCountCase v 15 100000000000000 10000000000000 1000000000000000 (by norm_num) (by norm_num) (by norm_num) (by norm_num) (by omega) (by omega)
    · -- k = 47
      norm_num at hlo hhi
      exact decCountCase v 15 100000000000000 10000000000000 1000000000000000 (by norm_num) (by norm_num) (by norm_num) (by norm_num) (by omega) (by omega)
    · -- k = 48
      norm_num at hlo hhi
      exact decCountCase v 15 100000000000000 10000000000000 1000000000000000 (by norm_num) (by norm_num) (by norm_num) (by norm_num) (by omega) (by omega)
    · -- k = 49
      norm_num at hlo hhi
      exact decCountCase v 16 1000000000000000 100000000000000 10000000000000000 (by norm_num) (by norm_num) (by norm_num) (by norm_num) (by omega) (by omega)
    · -- k = 50
      norm_num at hlo hhi
      exact decCountCase v 16 1000000000000000 100000000000000 10000000000000000 (by norm_num) (by norm_num) (by norm_num) (by norm_num) (by omega) (by omega)
    · -- k = 51
      norm_num at hlo hhi
      exact decCountCase v 16 1000000000000000 100000000000000 10000000000000000 (by norm_num) (by norm_num) (by norm_num) (by norm_num) (by omega) (by omega)
    · -- k = 52
      norm_num at hlo hhi
      exact decCountCase v 16 1000000000000000 100000000000000 10000000000000000 (by norm_num) (by norm_num) (by norm_num) (by norm_num) (by omega) (by omega)
    · -- k = 53
      norm_num at hlo hhi
      exact decCountCase v 17 10000000000000000 1000000000000000 100000000000000000 (by norm_num) (by norm_num) (by norm_num) (by norm_num) (by omega) (by omega)
    · -- k = 54
      norm_num at hlo hhi
      exact decCountCase v 17 10000000000000000 1000000000000000 100000000000000000 (by norm_num) (by norm_num) (by norm_num) (by norm_num) (by omega) (by omega)
    · -- k = 55
      norm_num at hlo hhi
      exact decCountCase v 17 10000000000000000 1000000000000000 100000000000000000 (by norm_num) (by norm_num) (by norm_num) (by norm_num) (by omega) (by omega)
    · -- k = 56
      norm_num at hlo hhi
      exact decCountCase v 18 100000000000000000 10000000000000000 1000000000000000000 (by norm_num) (by norm_num) (by norm_num) (by norm_num) (by omega) (by omega)
    · -- k = 57
      norm_num at hlo hhi
      exact decCountCase v 18 100000000000000000 10000000000000000 1000000000000000000 (by norm_num) (by norm_num) (by norm_num) (by norm_num) (by omega) (by omega)
    · -- k = 58
      norm_num at hlo hhi
      exact decCountCase v 18 100000000000000000 10000000000000000 1000000000000000000 (by norm_num) (by norm_num) (by norm_num) (by norm_num) (by omega) (by omega)
    · -- k = 59
      norm_num at hlo hhi
      exact decCountCase v 19 1000000000000000000 100000000000000000 10000000000000000000 (by norm_num) (by norm_num) (by norm_num) (by norm_num) (by omega) (by omega)
    · -- k = 60
      norm_num at hlo hhi
      exact decCountCase v 19 1000000000000000000 100000000000000000 10000000000000000000 (by norm_num) (by norm_num) (by norm_num) (by norm_num) (by omega) (by omega)
    · -- k = 61
      norm_num at hlo hhi
      exact decCountCase v 19 1000000000000000000 100000000000000000 10000000000000000000 (by norm_num) (by norm_num) (by norm_num) (by norm_num) (by omega) (by omega)
    · -- k = 62
      norm_num at hlo hhi
      exact decCountCase v 19 1000000000000000000 100000000000000000 10000000000000000000 (by norm_num) (by norm_num) (by norm_num) (by norm_num) (by omega) (by omega)
    · -- k = 63
      norm_num at hlo hhi
      exact decCountCase v 20 10000000000000000000 1000000000000000000 100000000000000000000 (by norm_num) (by norm_num) (by norm_num) (by norm_num) (by omega) (by omega)

/-- For a power-of-two base with LUT shift `s`, count and emitted length
agree for every positive input. -/
lemma pow2_count_write (b s v : Nat) (u : Bool) (hs : 1 ≤ s)
    (hb : baseLog2LUT.getD b 0 = s) (hv : 1 ≤ v) :
    pow2Count b v = (pow2Write u b v).length := by
  rw [pow2Count, hb, pow2Write, hb, pow2WriteF_len _ u b s hs v (by omega),
    log_two_pow_div s v hs, intLog2_eq_log v hv]

/-- For a generic base `2 ≤ b`, count and emitted length agree for every
positive input. -/
lemma g_count_write (b v : Nat) (u : Bool) (hb : 2 ≤ b) (hv : 1 ≤ v) :
    gCount b v = (gWrite u b v).length := by
  rw [gCount_eq b v hb, gWrite_len u b v hb, if_neg (by omega)]

/-- For base 10, count and emitted length agree for every `u64`. -/
lemma dec_count_write (v : Nat) (hv64 : v < 2 ^ 64) :
    decCount v = (decWrite v).length := by
  rw [decCount_eq v hv64, decWrite_len]

example : gCount 5 789942 = 9 := by decide
example : gWrite false 5 789942 = [50, 48, 48, 50, 51, 52, 50, 51, 50] := by decide
example : decWrite 42 = [52, 50] := by decide
example : decCount 42 = 2 := by decide
example : pow2Write false 2 42 = [49, 48, 49, 48, 49, 48] := by decide
example : pow2Write true 16 42 = [50, 65] := by decide
example : pow2Count 16 42 = 2 := by decide
example : unaryCount 2 = 3 := by decide
example : (unaryWrite 2).length = 2 := by decide
example : (gWrite false 3 0).length = 0 := by decide
example : gCount 3 0 = 1 := by decide

/-! ## Claim C1 (digit-count consistency) -/

/-- C1, counterexample.  The claim "for every `v : u64` and base `b` in
`1..=32`, `CountDigits(v, b)` equals the number of bytes `Write(v, b)`
appends" is false: at `(v, b) = (0, 3)` the count is 1 but
`GIntFormat<3>::Write` appends nothing (its digit loop never runs for 0),
and at `(v, b) = (2, 1)` the count is `2 | 1 = 3` but `IntFormat<1>::Write`
appends exactly two `'1'` bytes. -/
theorem c1_counterexample :
    CountDigitsU 0 3 ≠ ((WriteU false 0 3).2).length ∧
    CountDigitsU 2 1 ≠ ((WriteU false 2 1).2).length := by
  decide

/-- C1, amended: for every `v : u64` with `v ≥ 1` and every base `b` in
`2..=32`, `CountDigits(v, b)` equals the number of bytes `Write(v, b)`
appends to the buffer; and for `v = 0` the count is 1 in every base in
`1..=32` (though `Write` then appends one byte only in bases 1, 2, 4, 8, 10,
16 and 32, and nothing in the remaining bases). -/
theorem c1_amended :
    (∀ (v : Nat) (base : Int) (u : Bool), 1 ≤ v → v < 2 ^ 64 →
      2 ≤ base → base ≤ 32 →
      CountDigitsU v base = ((WriteU u v base).2).length) ∧
    (∀ base : Int, 1 ≤ base → base ≤ 32 → CountDigitsU 0 base = 1) := by
  constructor
  · intro v base u hv1 hv64 hb2 hb32
    interval_cases base <;>
      first
      | exact dec_count_write v hv64
      | exact g_count_write _ v u (by norm_num) hv1
      | exact pow2_count_write 2 1 v u (by norm_num) rfl hv1
      | exact pow2_count_write 4 2 v u (by norm_num) rfl hv1
      | exact pow2_count_write 8 3 v u (by norm_num) rfl hv1
      | exact pow2_count_write 16 4 v u (by norm_num) rfl hv1
      | exact pow2_count_write 32 5 v u (by norm_num) rfl hv1
  · intro base hb1 hb32
    interval_cases base <;> decide

/-- Witness for `c1_amended` at `v = 42`, `base = 7`. -/
theorem c1_amended_witness :
    CountDigitsU 42 7 = ((WriteU false 42 7).2).length ∧
    CountDigitsU 0 7 = 1 :=
  ⟨c1_amended.1 42 7 false (by norm_num) (by norm_num) (by norm_num)
      (by norm_num),
    c1_amended.2 7 (by norm_num) (by norm_num)⟩

/-! ### Engine facts -/

lemma findIdxF_eq_none (p : Nat → Bool) (s : List Nat)
    (h : ∀ x ∈ s, p x = false) : findIdxF p s = Option.none := by
  induction s with
  | nil => rfl
  | cons c rest ih =>
    rw [findIdxF, if_neg (by simp [h c (List.mem_cons_self c rest)]),
      ih (fun x hx => h x (List.mem_cons_of_mem c hx))]
    rfl

lemma ffo_eq_none (s : List Nat) (c : Nat) (h : c ∉ s) : ffo s c = Option.none :=
  findIdxF_eq_none _ _ (fun x hx => by
    have : x ≠ c := fun e => h (e ▸ hx)
    simp [this])

lemma ffno_replicate_append (n : Nat) (c : Nat) (rest : List Nat)
    (hc : c ≠ 123) :
    ffno (List.replicate n 123 ++ c :: rest) 123 = some n := by
  induction n with
  | zero => simp [ffno, findIdxF, hc]
  | succ n ih =>
    rw [List.replicate_succ, List.cons_append]
    rw [ffno] at ih ⊢
    rw [findIdxF, if_neg (by simp), ih]
    rfl

/-- Every successful `parseNextReplacement` consumes at least one byte of
the format string, so the loop makes progress and `fmt.length + 1` fuel can
never be exhausted. -/
lemma parseNextReplacement_progress (fmt : List Nat) (cur : FmtReplacement)
    (h : (parseNextReplacement fmt cur).1 = true) :
    (parseNextReplacement fmt cur).2.1.length < fmt.length := by
  match fmt with
  | [] => simp [parseNextReplacement] at h
  | c :: rest =>
    rw [parseNextReplacement] at h ⊢
    by_cases hc : c ≠ 123
    · rw [if_pos hc] at h ⊢
      have hn : 1 ≤ (ffo (c :: rest) 123).getD (c :: rest).length := by
        rcases hffo : ffo (c :: rest) 123 with _ | i
        · simp
        · have h0 : ((c : Nat) == 123) = false := by simp [hc]
          rw [ffo, findIdxF, h0] at hffo
          simp only [Bool.false_eq_true, if_false] at hffo
          rcases Option.map_eq_some'.mp hffo with ⟨j, hj1, hj2⟩
          simp
          omega
      simp only [List.length_drop]
      simp only [List.length_cons] at hn ⊢
      omega
    · push_neg at hc
      subst hc
      rw [if_neg (by simp)] at h ⊢
      by_cases hb : (collectBraces ((123 : Nat) :: rest)).length > 1
      · rw [if_pos hb] at h ⊢
        simp only [List.length_drop, List.length_cons]
        omega
      · rw [if_neg hb] at h ⊢
        rcases hbc : ffo ((123 : Nat) :: rest) 125 with _ | bclose
        · rw [hbc] at h
          simp at h
        · rw [hbc] at h
          simp only [] at h ⊢
          rcases hno : (ffo (((123 : Nat) :: rest).drop 1) 123).map (· + 1)
            with _ | no
          · rw [hno] at h
            simp only [List.length_drop, List.length_cons]
            omega
          · rw [hno] at h
            simp only [] at h ⊢
            by_cases hlt : no < bclose
            · rw [if_pos hlt] at h ⊢
              rcases Option.map_eq_some'.mp hno with ⟨j, hj1, hj2⟩
              simp only [List.length_drop, List.length_cons]
              omega
            · rw [if_neg hlt] at h ⊢
              simp only [List.length_drop, List.length_cons]
              omega

/-- `parseNextReplacement` on a nonempty brace-free format: the whole string
is one literal run. -/
lemma parseNext_noBrace (fmt : List Nat) (cur : FmtReplacement)
    (h : fmt ≠ []) (hmem : 123 ∉ fmt) :
    parseNextReplacement fmt cur = (true, [], litRepl fmt) := by
  match fmt with
  | c :: rest =>
    have hc : c ≠ 123 := fun e => hmem (e ▸ List.mem_cons_self c rest)
    have hffo : ffo (c :: rest) 123 = Option.none := ffo_eq_none _ _ hmem
    simp [parseNextReplacement, hc, hffo, List.drop_length, List.take_length]

/-- The loop on a brace-free format appends the format and stops. -/
lemma parseWith_noBrace (fuel : Nat) : ∀ (fmt : List Nat)
    (cur : FmtReplacement) (vals : List FmtVal) (buf : List Nat),
    123 ∉ fmt → fmt.length < fuel →
    parseWithF fuel fmt cur vals buf = some (buf ++ fmt) := by
  induction fuel with
  | zero => intro fmt _ _ _ _ h; omega
  | succ fuel ih =>
    intro fmt cur vals buf hmem hf
    match fmt with
    | [] => simp [parseWithF, parseNextReplacement]
    | c :: rest =>
      have hlen : 0 < fuel := by
        simp at hf
        omega
      simp only [parseWithF]
      rw [parseNext_noBrace (c :: rest) cur (by simp) hmem]
      show parseWithF fuel [] (litRepl (c :: rest)) vals (buf ++ (c :: rest)) =
        some (buf ++ (c :: rest))
      rw [ih [] _ vals (buf ++ (c :: rest)) (by simp) (by simpa using hlen)]
      simp

/-! ## Claim C2 (literal preservation) -/

/-- C2: for every format string without a `'{'` byte and any argument list,
the engine's output equals the input byte-for-byte. -/
theorem c2_literal_preservation (fmt : List Nat) (vals : List FmtVal)
    (h : 123 ∉ fmt) : parseWith fmt vals = some fmt := by
  rw [parseWith, parseWith_noBrace _ fmt _ vals [] h (by omega)]
  simp

/-- Witness for `c2_literal_preservation` on the string `"ab"`. -/
theorem c2_literal_preservation_witness :
    parseWith [97, 98] [] = some [97, 98] :=
  c2_literal_preservation [97, 98] [] (by decide)

/-! ## Claim C10 (the terminating NUL is formatted as a literal) -/

/-- C10: `format` hands the engine all `N` bytes of the char array — the
terminating NUL included — so over a brace-free literal the output is the
input plus a trailing `'\0'` byte. -/
theorem c10_trailing_nul (s : List Nat) (vals : List FmtVal)
    (h : 123 ∉ s) :
    formatAPI s vals = some (s ++ [0]) ∧
    (s ++ [0]).getLast? = some 0 := by
  constructor
  · rw [formatAPI, parseWith,
      parseWith_noBrace _ (s ++ [0]) _ vals [] (by
        intro hmem
        rcases List.mem_append.mp hmem with h1 | h1
        · exact h h1
        · simp at h1) (by omega)]
    simp
  · exact List.getLast?_concat s

/-- Witness for `c10_trailing_nul` on the one-byte literal `"a"`. -/
theorem c10_trailing_nul_witness :
    formatAPI [97] [] = some [97, 0] :=
  (c10_trailing_nul [97] [] (by decide)).1

/-! ## Claim C3 (brace escaping) -/

lemma collectBraces_replicate (n : Nat) (c : Nat) (rest : List Nat)
    (hc : c ≠ 123) :
    collectBraces (List.replicate n 123 ++ c :: rest) = List.replicate n 123 := by
  rw [collectBraces, ffno_replicate_append n c rest hc]
  show (List.replicate n 123 ++ c :: rest).take n = List.replicate n 123
  rw [List.take_append_eq_append_take, List.length_replicate,
    List.take_replicate, Nat.sub_self]
  simp

/-- A lone `'{'` followed by no `'}'`: the unterminated-field path drops the
tail and stops (nothing more is appended). -/
lemma c3_one (fuel : Nat) (c : Nat) (rest : List Nat) (cur : FmtReplacement)
    (vals : List FmtVal) (buf : List Nat) (hc : c ≠ 123)
    (h2 : (125 : Nat) ∉ (123 : Nat) :: c :: rest) (hfuel : 0 < fuel) :
    parseWithF fuel ((123 : Nat) :: c :: rest) cur vals buf = some buf := by
  match fuel, hfuel with
  | fuel + 1, _ =>
    have hb : collectBraces ((123 : Nat) :: c :: rest) = [123] := by
      have h1 := collectBraces_replicate 1 c rest hc
      simpa using h1
    have hffo : ffo ((123 : Nat) :: c :: rest) 125 = Option.none :=
      ffo_eq_none _ _ h2
    have hpn : parseNextReplacement ((123 : Nat) :: c :: rest) cur =
        (false, [], litRepl ((123 : Nat) :: c :: rest)) := by
      simp [parseNextReplacement, hb, hffo]
    simp only [parseWithF]
    rw [hpn]
    rfl

/-- One brace-run step plus the tail: a run of `n` braces followed by a
brace-and-`'}'`-free tail produces `n / 2` literal braces; an even run then
copies the tail, an odd run leaves a lone `'{'` whose unterminated field
drops the tail. -/
lemma c3_core (fuel n : Nat) (c : Nat) (rest : List Nat)
    (cur : FmtReplacement) (vals : List FmtVal) (buf : List Nat)
    (hc : c ≠ 123) (h1 : (123 : Nat) ∉ rest) (h2 : (125 : Nat) ∉ c :: rest)
    (hf : (List.replicate n 123 ++ c :: rest).length < fuel) :
    parseWithF fuel (List.replicate n 123 ++ c :: rest) cur vals buf =
      some (buf ++ List.replicate (n / 2) 123 ++
        (if n % 2 = 0 then c :: rest else [])) := by
  have hnb : (123 : Nat) ∉ c :: rest := by
    intro hmem
    rcases List.mem_cons.mp hmem with h | h
    · exact hc h.symm
    · exact h1 h
  rcases Nat.lt_or_ge n 2 with hn | hn
  · interval_cases n
    · simp only [List.replicate, List.nil_append, Nat.zero_div,
        Nat.zero_mod, if_pos rfl]
      rw [parseWith_noBrace _ _ _ _ _ hnb (by simpa using hf)]
      simp
    · simp only [List.replicate, List.cons_append, List.nil_append]
      rw [c3_one fuel c rest cur vals buf hc (by simpa using h2)
        (by simp at hf; omega)]
      simp
  · match fuel with
    | fuel + 1 =>
      have hhead : List.replicate n 123 ++ c :: rest =
          123 :: (List.replicate (n - 1) 123 ++ c :: rest) := by
        match n, hn with
        | m + 2, _ => simp [List.replicate_succ]
      have hcb : collectBraces (123 :: (List.replicate (n - 1) 123 ++ c :: rest)) =
          List.replicate n 123 := by
        rw [← hhead]
        exact collectBraces_replicate n c rest hc
      have htake : (123 :: (List.replicate (n - 1) 123 ++ c :: rest)).take (n / 2) =
          List.replicate (n / 2) 123 := by
        rw [← hhead, List.take_append_eq_append_take, List.length_replicate,
          List.take_replicate]
        have he : n / 2 - n = 0 := by omega
        have hm : min (n / 2) n = n / 2 := by omega
        simp [he, hm]
      have hdrop : (123 :: (List.replicate (n - 1) 123 ++ c :: rest)).drop (n / 2 * 2) =
          List.replicate (n % 2) 123 ++ c :: rest := by
        rw [← hhead, List.drop_append_eq_append_drop, List.length_replicate,
          List.drop_replicate]
        have he : n / 2 * 2 - n = 0 := by omega
        have hm : n - n / 2 * 2 = n % 2 := by omega
        simp [he, hm]
      have hpn : parseNextReplacement (List.replicate n 123 ++ c :: rest) cur =
          (true, List.replicate (n % 2) 123 ++ c :: rest,
            litRepl (List.replicate (n / 2) 123)) := by
        rw [hhead]
        simp only [parseNextReplacement, hcb, List.length_replicate]
        rw [if_neg (by omega : ¬((123 : Nat) ≠ 123)), if_pos (by omega : 1 < n),
          htake, hdrop]
      simp only [parseWithF]
      rw [hpn]
      show parseWithF fuel (List.replicate (n % 2) 123 ++ c :: rest)
          (litRepl (List.replicate (n / 2) 123)) vals
          (buf ++ List.replicate (n / 2) 123) =
        some (buf ++ List.replicate (n / 2) 123 ++
          (if n % 2 = 0 then c :: rest else []))
      have hlen : (List.replicate (n % 2) 123 ++ c :: rest).length < fuel := by
        simp at hf ⊢
        omega
      rcases Nat.mod_two_eq_zero_or_one n with hmod | hmod
      · rw [hmod]
        simp only [List.replicate, List.nil_append, if_pos rfl]
        rw [parseWith_noBrace _ _ _ _ _ hnb (by simpa [hmod] using hlen)]
        simp
      · rw [hmod]
        simp only [List.replicate, List.cons_append, List.nil_append]
        rw [c3_one fuel c rest _ vals _ hc (by simpa using h2)
          (by omega)]
        rw [if_neg (by omega)]
        simp

/-- C3, counterexample.  `format("{{")` does not return `"{"`: the engine is
handed the terminating NUL as well (see C10), so the result is the two
bytes `"{\0"`. -/
theorem c3_counterexample : formatAPI [123, 123] [] ≠ some [123] := by decide

/-- C3, amended: a run of `N` consecutive `'{'` produces `N / 2` literal
`'{'` bytes; an even run is followed by the (brace- and `'}'`-free) tail
copied verbatim, an odd remainder begins a replacement field (here
unterminated, so the tail is dropped).  The concrete API calls return the
escaped braces plus the copied terminating NUL: `format("{{") = "{\0"` and
`format("{{{{") = "{{\0"`. -/
theorem c3_amended :
    (∀ (n : Nat) (c : Nat) (rest : List Nat) (vals : List FmtVal),
      c ≠ 123 → (123 : Nat) ∉ rest → (125 : Nat) ∉ c :: rest →
      parseWith (List.replicate n 123 ++ c :: rest) vals =
        some (List.replicate (n / 2) 123 ++
          (if n % 2 = 0 then c :: rest else []))) ∧
    formatAPI [123, 123] [] = some [123, 0] ∧
    formatAPI [123, 123, 123, 123] [] = some [123, 123, 0] := by
  refine ⟨?_, by decide, by decide⟩
  intro n c rest vals hc h1 h2
  rw [parseWith, c3_core _ n c rest _ vals [] hc h1 h2 (by omega)]
  simp

/-- Witness for `c3_amended`: a run of five braces before `'a'` yields two
literal braces and drops the tail. -/
theorem c3_amended_witness :
    parseWith [123, 123, 123, 123, 123, 97] [] = some [123, 123] := by
  have h := c3_amended.1 5 97 [] [] (by decide) (by decide) (by decide)
  simpa using h

/-! ## Claim C5 (no crash / dynamic width underflow) -/

/-- C5 at the failing input: a dynamic-width field (`"{: <*}"`) with no
values left makes `parseWith` dereference the null pointer returned by
`FmtValueSpan::take` (`Align->isIntType(true)` with `Align == nullptr`,
modelled as `none`); with one value left the same call instead degrades to
truncated output. -/
theorem c5_dynamic_width_crash :
    parseWith [123, 58, 32, 60, 42, 125] [] = Option.none ∧
    parseWith [123, 58, 32, 60, 42, 125] [FmtVal.unsigned 5] = some [] := by
  decide

/-! ## Claim C6 (pad coercion boundary) -/

/-- C6, counterexample: the DEL byte `0x7F` is outside printable ASCII
(`0x20..0x7E`), yet parsing keeps it as the pad — the source checks
`Pad > 0x7F`, not `Pad > 0x7E` — so the claimed coercion to `' '` does not
happen. -/
theorem c6_counterexample :
    (parseReplacementSpec [58, 127]).1 = true ∧
    (parseReplacementSpec [58, 127]).2.pad ≠ 32 := by decide

/-- The parsed pad of an alignment spec, before resolving the coercion
condition: either the spec fails or the pad is the source's coercion of the
second byte. -/
lemma parseSpec_pad (p : Nat) (rest : List Nat) :
    (parseReplacementSpec (58 :: p :: rest)).1 = false ∨
    (parseReplacementSpec (58 :: p :: rest)).2.pad =
      (if charSVal p < 32 ∨ charSVal p > 127 then 32 else p) := by
  simp only [parseReplacementSpec]
  rw [if_pos trivial]
  split
  · right; rfl
  · split
    · left; rfl
    · right; rfl

/-- C6, amended: the pad byte is coerced to `' '` exactly when its signed
`char` value is below `0x20` or above `0x7F` — i.e. for bytes `0x00..0x1F`
and `0x80..0xFF`; bytes `0x20..0x7F` (DEL included) are kept — and a field
`"{:p}"` is still parsed as a `Format` replacement rather than dropped. -/
theorem c6_amended (p : Nat) (rest : List Nat) (hp : p ≤ 255) :
    ((parseReplacementSpec (58 :: p :: rest)).1 = true →
      (parseReplacementSpec (58 :: p :: rest)).2.pad =
        (if p < 32 ∨ 128 ≤ p then 32 else p)) ∧
    ((parseReplacementSpec [58, p]).1 = true ∧
      (parseReplacementSpec [58, p]).2.type = RType.format) := by
  have hco : (if charSVal p < 32 ∨ charSVal p > 127 then 32 else p) =
      (if p < 32 ∨ 128 ≤ p then 32 else p) := by
    rw [charSVal]
    by_cases h128 : p < 128
    · rw [if_pos h128]
      by_cases h32 : p < 32
      · rw [if_pos (Or.inl (by exact_mod_cast h32)), if_pos (Or.inl h32)]
      · rw [if_neg (by omega), if_neg (by omega)]
    · rw [if_neg h128, if_pos (Or.inl (by omega)),
        if_pos (Or.inr (by omega))]
  constructor
  · intro hres
    rcases parseSpec_pad p rest with h | h
    · rw [hres] at h
      cases h
    · rw [h, hco]
  · exact ⟨rfl, rfl⟩

/-- Witness for `c6_amended` at pad byte `0xC8` (coerced) with a digit tail. -/
theorem c6_amended_witness :
    (parseReplacementSpec [58, 200, 53]).2.pad = 32 ∧
    (parseReplacementSpec [58, 200]).1 = true := by
  have h := c6_amended 200 [53] (by norm_num)
  exact ⟨(h.1 (by decide)).trans (by norm_num), h.2.1⟩

/-! ## Claim C7 (pointer prefix byte) -/

/-- C7, counterexample: with the parsed base `Dec` (the default), writing a
pointer emits `'0','z'` — not `'0','d'` as the claim states (the per-base
`"bodx"` lookup is commented out in `Formatter::write(const void*)`). -/
theorem c7_counterexample :
    (writePtr ⟨RType.format, [], 10, .noExtra, 0, .left, 32⟩ 5).2 ≠
      [48, 100, 53] ∧
    (writePtr ⟨RType.format, [], 10, .noExtra, 0, .left, 32⟩ 5).2 =
      [48, 122, 53] := by decide

/-- C7, amended: for every replacement (base at least 1, no padding) and
every pointer value, the engine emits `'0'`, then ALWAYS the byte `'z'`
regardless of the base, then the numeric address via the unsigned writer
(zero addresses print `'0'`). -/
theorem c7_amended (repl : FmtReplacement) (p : Nat) (hb : 1 ≤ repl.base)
    (ha : repl.align = 0) :
    formatValue repl (.ptr p) =
      some ((writeUInt repl p).1, 48 :: 122 :: (writeUInt repl p).2) := by
  have hlen : 1 ≤ getValueSize repl (.ptr p) := by
    simp only [getValueSize, FmtVal.isGeneric, FmtVal.isSInt, FmtVal.isUInt,
      FmtVal.isPtr, Bool.false_eq_true, if_false, if_true]
    omega
  simp only [formatValue]
  rw [if_neg (by omega : ¬repl.base = -1), if_pos (by omega)]
  simp [writeValue, FmtVal.isSInt, FmtVal.isUInt, FmtVal.isPtr,
    FmtVal.getPtrAddr, writePtr]

/-- Witness for `c7_amended` with the default (decimal) spec and address 5. -/
theorem c7_amended_witness :
    formatValue ⟨RType.format, [], 10, .noExtra, 0, .left, 32⟩ (.ptr 5) =
      some (true, [48, 122, 53]) := by
  have h := c7_amended ⟨RType.format, [], 10, .noExtra, 0, .left, 32⟩ 5
    (by norm_num) rfl
  rw [h]
  decide

/-! ## Claim C8 (reserve growth policy) -/

/-- C8: when `cap` exceeds the current capacity, `tryReserve` sets the
capacity to `max(cap, 2 × old)`, keeps the stored bytes (copying them into
the block), and the backing becomes a freshly allocated heap block — in
particular on the first growth from inline storage.  (The hypothesis rules
out the physically unreachable `size_t` overflow of the doubling, which the
source only debug-asserts against.) -/
theorem c8_reserve_growth (b : SB) (cap ctr : Nat) (hgrow : b.cap < cap)
    (hnowrap : b.cap * 2 < 2 ^ 64) :
    (b.tryReserve cap ctr).1.cap = max cap (2 * b.cap) ∧
    (b.tryReserve cap ctr).1.data = b.data ∧
    (b.tryReserve cap ctr).1.backing = Backing.heap ctr ∧
    (b.tryReserve cap ctr).2 = ctr + 1 := by
  rw [SB.tryReserve, if_neg (by omega)]
  refine ⟨?_, rfl, rfl, rfl⟩
  show max (b.cap * 2 % 2 ^ 64) cap = max cap (2 * b.cap)
  rw [Nat.mod_eq_of_lt hnowrap]
  omega

/-- Witness for `c8_reserve_growth`: an inline buffer of capacity 2 grows to
capacity 5 on `reserve(5)`, its bytes copied into heap block 0. -/
theorem c8_reserve_growth_witness :
    (SB.tryReserve ⟨[1, 2], 2, .inline⟩ 5 0).1.cap = 5 ∧
    (SB.tryReserve ⟨[1, 2], 2, .inline⟩ 5 0).1.data = [1, 2] ∧
    (SB.tryReserve ⟨[1, 2], 2, .inline⟩ 5 0).1.backing = Backing.heap 0 := by
  have h := c8_reserve_growth ⟨[1, 2], 2, .inline⟩ 5 0 (by norm_num) (by norm_num)
  exact ⟨h.1.trans (by norm_num), h.2.1, h.2.2.1⟩

/-! ## Claim C9 (length ≤ capacity) -/

lemma tryReserve_spec (b : SB) (cap ctr : Nat) :
    (b.tryReserve cap ctr).1.data = b.data ∧
    cap ≤ (b.tryReserve cap ctr).1.cap ∧
    b.cap ≤ (b.tryReserve cap ctr).1.cap := by
  rw [SB.tryReserve]
  split_ifs with h
  · exact ⟨rfl, h, le_rfl⟩
  · refine ⟨rfl, ?_, ?_⟩ <;>
    · show _ ≤ max (b.cap * 2 % 2 ^ 64) cap
      have := le_max_right (b.cap * 2 % 2 ^ 64) cap
      omega

lemma tryResize_inv (b : SB) (cnt ctr : Nat) :
    (b.tryResize cnt ctr).1.data.length ≤ (b.tryResize cnt ctr).1.cap := by
  obtain ⟨hd, hc1, hc2⟩ := tryReserve_spec b cnt ctr
  rw [SB.tryResize]
  simp only [List.length_take]
  omega

lemma tryResizeFill_inv (b : SB) (cnt f ctr : Nat) :
    (b.tryResizeFill cnt f ctr).1.data.length ≤
      (b.tryResizeFill cnt f ctr).1.cap := by
  have h1 := tryResize_inv b cnt ctr
  rw [SB.tryResizeFill]
  split_ifs with h
  · simp only [List.length_append, List.length_take, List.length_replicate]
    omega
  · exact h1

/-- C9: every mutating buffer operation — push, append, fill, both resizes,
reserve and wipe — preserves `length ≤ capacity`. -/
theorem c9_invariant (b : SB) (c cnt cap n ctr : Nat) (l : List Nat)
    (hinv : b.data.length ≤ b.cap) :
    ((b.pushBack c ctr).1.data.length ≤ (b.pushBack c ctr).1.cap) ∧
    ((b.appendBytes l ctr).1.data.length ≤ (b.appendBytes l ctr).1.cap) ∧
    ((b.fillBytes cnt c ctr).1.data.length ≤ (b.fillBytes cnt c ctr).1.cap) ∧
    ((b.tryResize cnt ctr).1.data.length ≤ (b.tryResize cnt ctr).1.cap) ∧
    ((b.tryResizeFill cnt c ctr).1.data.length ≤
      (b.tryResizeFill cnt c ctr).1.cap) ∧
    ((b.tryReserve cap ctr).1.data.length ≤ (b.tryReserve cap ctr).1.cap) ∧
    ((b.wipe n ctr).1.data.length ≤ (b.wipe n ctr).1.cap) := by
  refine ⟨?_, ?_, tryResizeFill_inv b _ c ctr, tryResize_inv b cnt ctr,
    tryResizeFill_inv b cnt c ctr, ?_, ?_⟩
  · obtain ⟨hd, hc1, hc2⟩ := tryReserve_spec b (b.data.length + 1) ctr
    have hl := congrArg List.length hd
    rw [SB.pushBack]
    simp only [List.length_append, List.length_singleton]
    omega
  · rw [SB.appendBytes]
    split_ifs with h
    · exact hinv
    · obtain ⟨hd, hc1, hc2⟩ := tryReserve_spec b (b.data.length + l.length) ctr
      have hl := congrArg List.length hd
      simp only [List.length_append]
      omega
  · obtain ⟨hd, hc1, hc2⟩ := tryReserve_spec b cap ctr
    rw [hd] at *
    omega
  · rw [SB.wipe]
    split_ifs with h <;> simp

/-- Witness for `c9_invariant` on a concrete inline buffer. -/
theorem c9_invariant_witness :
    ((SB.pushBack ⟨[7], 2, .inline⟩ 9 0).1.data.length ≤
      (SB.pushBack ⟨[7], 2, .inline⟩ 9 0).1.cap) ∧
    ((SB.wipe ⟨[7], 2, .inline⟩ 4 0).1.data.length ≤
      (SB.wipe ⟨[7], 2, .inline⟩ 4 0).1.cap) := by
  have h := c9_invariant ⟨[7], 2, .inline⟩ 9 3 5 4 0 [1, 2] (by norm_num)
  exact ⟨h.1, h.2.2.2.2.2.2⟩

/-! ## Claim C4 (move semantics) -/

/-- C4, counterexample: the source is heap-backed (block 7) and nonempty,
yet after the move the receiver does NOT own that heap block — because the
receiver's capacity (16) is at least the source's (8), `move` copies the
bytes instead and frees the source's block. -/
theorem c4_counterexample :
    (SB.move false ⟨[120, 121, 122], 16, .inline⟩ ⟨[97, 98], 8, .heap 7⟩
        0).1.backing ≠ Backing.heap 7 ∧
    (SB.move false ⟨[120, 121, 122], 16, .inline⟩ ⟨[97, 98], 8, .heap 7⟩
        0).1.data = [97, 98] := by
  decide

lemma deallocateIfDynamic_data (b : SB) : b.deallocateIfDynamic.data = [] := by
  rw [SB.deallocateIfDynamic]
  split_ifs <;> rfl

/-- C4, amended: the receiver takes ownership of the source's heap block
only when the source is nonempty, heap-backed, AND strictly larger in
capacity than the receiver — and in that take path the receiver's length is
left at 0, so the taken bytes are not observable.  When the receiver's
capacity is at least the source's, the bytes are copied into the receiver's
existing storage instead (and the source's block is freed); when the source
is larger but inline, the bytes are copied into freshly reserved storage.
In every non-self case the source ends with length 0, and a self-move
leaves everything unchanged. -/
theorem c4_amended (dst src : SB) (ctr : Nat) (hid : Nat) :
    (SB.move true dst src ctr = (dst, src, ctr)) ∧
    ((SB.move false dst src ctr).2.1.data = []) ∧
    (src.data ≠ [] → src.cap ≤ dst.cap → src.data.length ≤ src.cap →
      (SB.move false dst src ctr).1.data = src.data ∧
      (SB.move false dst src ctr).1.backing = dst.backing ∧
      (SB.move false dst src ctr).1.cap = dst.cap) ∧
    (src.data ≠ [] → dst.cap < src.cap → src.backing = Backing.heap hid →
      (SB.move false dst src ctr).1.backing = Backing.heap hid ∧
      (SB.move false dst src ctr).1.cap = src.cap ∧
      (SB.move false dst src ctr).1.data = []) ∧
    (src.data ≠ [] → dst.cap < src.cap → src.backing = Backing.inline →
      src.data.length ≤ src.cap →
      (SB.move false dst src ctr).1.data = src.data) := by
  refine ⟨by rw [SB.move]; simp, ?_, ?_, ?_, ?_⟩
  · rw [SB.move]
    simp only [Bool.false_eq_true, if_false]
    split_ifs with h1 h2
    · rfl
    · rw [SB.cloneOrTakeBuffer]
      split_ifs with h3 <;> rfl
    · rw [SB.deallocateIfDynamic]
      split_ifs with h3 <;> rfl
  · intro hne hcap hinv
    have hlen : src.data.length ≠ 0 := by
      simpa [List.length_eq_zero] using hne
    rw [SB.move]
    simp only [Bool.false_eq_true, if_false]
    rw [if_neg hlen, if_neg (by omega)]
    rw [SB.appendBytes, if_neg (by simpa using hlen)]
    rw [SB.tryReserve, if_pos (by simp; omega)]
    exact ⟨by simp, rfl, rfl⟩
  · intro hne hcap hheap
    have hlen : src.data.length ≠ 0 := by
      simpa [List.length_eq_zero] using hne
    rw [SB.move]
    simp only [Bool.false_eq_true, if_false]
    rw [if_neg hlen, if_pos hcap]
    rw [SB.cloneOrTakeBuffer, if_neg (by rw [hheap]; intro h; cases h)]
    exact ⟨hheap ▸ rfl, rfl, rfl⟩
  · intro hne hcap hinl hinv
    have hlen : src.data.length ≠ 0 := by
      simpa [List.length_eq_zero] using hne
    rw [SB.move]
    simp only [Bool.false_eq_true, if_false]
    rw [if_neg hlen, if_pos hcap]
    rw [SB.cloneOrTakeBuffer, if_pos hinl]
    have ht : dst.deallocateIfDynamic.data = [] := deallocateIfDynamic_data dst
    obtain ⟨hd1, hc1, hc2⟩ := tryReserve_spec dst.deallocateIfDynamic src.cap ctr
    simp only []
    rw [SB.appendBytes, if_neg (by simpa using hlen)]
    rw [SB.tryReserve, if_pos (by rw [hd1, ht]; simp; omega)]
    simp [hd1, ht]

/-- Witness for `c4_amended`: a small receiver takes ownership of a larger
heap-backed source's block (and reports length 0), and the source is
cleared. -/
theorem c4_amended_witness :
    (SB.move false ⟨[1], 4, .inline⟩ ⟨[97, 98], 8, .heap 7⟩ 0).1.backing =
      Backing.heap 7 ∧
    (SB.move false ⟨[1], 4, .inline⟩ ⟨[97, 98], 8, .heap 7⟩ 0).1.data = [] ∧
    (SB.move false ⟨[1], 4, .inline⟩ ⟨[97, 98], 8, .heap 7⟩ 0).2.1.data = [] := by
  have h := c4_amended ⟨[1], 4, .inline⟩ ⟨[97, 98], 8, .heap 7⟩ 0 7
  have h4 := h.2.2.2.1 (by decide) (by decide) rfl
  exact ⟨h4.1, h4.2.2, h.2.1⟩

end Slimfmt
